import Mathlib

/-!
# GoToTypeScript: the type translator and the declaration loop

A shallow embedding of `ToTypeScript.go`.  The resolved type graph that
`go/types` hands to the program is an inductive type `GoType`; the functions
`TypeToTypeScript`, `StructToTypeScript`, `TupleToTypeScript`,
`UnionToTypeScript` and the declaration loop of `ConvertGoFile` are
translated arm by arm.  A Go `(string, error)` return is a `Result.ret`
holding both components, and a run-time panic (a slice bound out of range)
is `Result.panic`.
-/

namespace GoToTypeScript

/-! ## go/types: basic kinds and their info flags -/

/-- The kinds of `types.Basic`, in the order of the `BasicKind` constants of go/types. -/
inductive BasicKind
  | Invalid
  | Bool | Int | Int8 | Int16 | Int32 | Int64
  | Uint | Uint8 | Uint16 | Uint32 | Uint64 | Uintptr
  | Float32 | Float64 | Complex64 | Complex128
  | String | UnsafePointer
  | UntypedBool | UntypedInt | UntypedRune | UntypedFloat | UntypedComplex
  | UntypedString | UntypedNil
  deriving DecidableEq

/-- The flag `types.IsBoolean` (`1 << iota`, iota = 0). -/
def IsBoolean : Nat := 1 <<< 0
/-- The flag `types.IsInteger`. -/
def IsInteger : Nat := 1 <<< 1
/-- The flag `types.IsUnsigned`. -/
def IsUnsigned : Nat := 1 <<< 2
/-- The flag `types.IsFloat`. -/
def IsFloat : Nat := 1 <<< 3
/-- The flag `types.IsComplex`. -/
def IsComplex : Nat := 1 <<< 4
/-- The flag `types.IsString`. -/
def IsString : Nat := 1 <<< 5
/-- The flag `types.IsUntyped`. -/
def IsUntyped : Nat := 1 <<< 6
/-- The mask `types.IsNumeric = IsInteger | IsFloat | IsComplex`. -/
def IsNumeric : Nat := IsInteger ||| IsFloat ||| IsComplex

/-- The info column of the table `types.Typ` of go/types: the flags of each basic kind. -/
def BasicKind.Info : BasicKind → Nat
  | .Invalid => 0
  | .Bool => IsBoolean
  | .Int | .Int8 | .Int16 | .Int32 | .Int64 => IsInteger
  | .Uint | .Uint8 | .Uint16 | .Uint32 | .Uint64 | .Uintptr => IsInteger ||| IsUnsigned
  | .Float32 | .Float64 => IsFloat
  | .Complex64 | .Complex128 => IsComplex
  | .String => IsString
  | .UnsafePointer => 0
  | .UntypedBool => IsBoolean ||| IsUntyped
  | .UntypedInt | .UntypedRune => IsInteger ||| IsUntyped
  | .UntypedFloat => IsFloat ||| IsUntyped
  | .UntypedComplex => IsComplex ||| IsUntyped
  | .UntypedString => IsString ||| IsUntyped
  | .UntypedNil => IsUntyped

/-! ## go/types: the type graph -/

/-- The implementations of `types.Type`.  A struct field and a tuple element are a
`types.Var`, of which the program reads the name and the type; a union term is given by
its type (the program never reads the tilde flag).  `Named` and `Alias` carry the name of
their object together with the type they stand for, which a finite tree holds unfolded to
a finite depth. -/
inductive GoType
  | Basic (kind : BasicKind)
  | Named (name : String) (underlying : GoType)
  | Alias (name : String) (actual : GoType)
  | Pointer (elem : GoType)
  | Slice (elem : GoType)
  | Array (elem : GoType) (len : Int)
  | Map (key : GoType) (elem : GoType)
  | Struct (fields : List (String × GoType))
  | Tuple (vars : List (String × GoType))
  | Union (terms : List GoType)
  | Chan (elem : GoType)
  | Signature (params : List (String × GoType)) (results : List (String × GoType))
  | Interface (embeddeds : List GoType)
  | TypeParam (name : String)

instance : Inhabited GoType := ⟨.Basic .Invalid⟩

/-- The text of an embedded-field error. -/
def EMBEDDEDFIELD : String := "Embedded fields are not supported"
/-- The text of an unsupported-type error. -/
def NOTIMPLEMENTED : String := "Type is unsupported"

/-- The error value of the program: a text and the type it is about. -/
structure typeError where
  text : String
  errorType : GoType

/-- What a call of a translating function does: it returns a `(string, error)` pair, the
error being `none` for Go's `nil`, or it panics at run time. -/
inductive Result
  | ret (value : String) (err : Option typeError)
  | panic

/-- The string component of a returned pair. -/
def Result.value : Result → String
  | .ret value _ => value
  | .panic => ""

/-- The call returned with a nil error. -/
def Result.isSuccess : Result → Bool
  | .ret _ none => true
  | _ => false

/-- The call returned with a non-nil error. -/
def Result.isError : Result → Bool
  | .ret _ (some _) => true
  | _ => false

/-! ## Go strings: the slice expression `s[0:hi]` -/

/-- The longest run of leading characters whose UTF-8 encodings fit in `n` bytes; when
`n` falls on a character boundary these are exactly the first `n` bytes. -/
def takeBytes : List Char → Nat → List Char
  | [], _ => []
  | c :: cs, n => if c.utf8Size ≤ n then c :: takeBytes cs (n - c.utf8Size) else []

/-- The slice expression `s[0:hi]` on a Go string: `none` is the run-time panic for a
bound that is negative or beyond `len(s)`. -/
def sliceTo (s : String) (hi : Int) : Option String :=
  if hi < 0 ∨ (s.utf8ByteSize : Int) < hi then none
  else some ⟨takeBytes s.data hi.toNat⟩

/-! ## The translator -/

/-- The loop of `TupleToTypeScript`: the builder after writing each element name and a
separator. -/
def TupleToTypeScript.loop : List (String × GoType) → String → String
  | [], definitionBuilder => definitionBuilder
  | (name, _) :: rest, definitionBuilder =>
    TupleToTypeScript.loop rest (definitionBuilder ++ name ++ ", ")

/-- The function `TupleToTypeScript`: the returned string, or `none` when the slice expression
panics. -/
def TupleToTypeScript (vars : List (String × GoType)) : Option String :=
  let definitionBuilder := TupleToTypeScript.loop vars "["
  match sliceTo definitionBuilder ((definitionBuilder.utf8ByteSize : Int) - 2) with
  | none => none
  | some s => some (s ++ "]")

mutual
/-- The function `TypeToTypeScript`: one arm per case of the type switch.  The struct and union arms
enter the loops of `StructToTypeScript` and `UnionToTypeScript` with their initial
builders. -/
def TypeToTypeScript : GoType → Result
  | .Struct fields => StructToTypeScript.loop fields fields "\x7b\n"
  | .Alias name _ => .ret name none
  | .Array elem _ =>
    match TypeToTypeScript elem with
    | .panic => .panic
    | .ret _ (some err) => .ret "" (some err)
    | .ret value none => .ret ("[]" ++ value) none
  | .Basic kind =>
    let info := kind.Info
    if info &&& IsBoolean > 0 then .ret "bool" none
    else if info &&& IsComplex > 0 then .ret "" (some ⟨NOTIMPLEMENTED, .Basic kind⟩)
    else if info &&& IsNumeric > 0 then .ret "number" none
    else if info &&& IsString > 0 then .ret "string" none
    else .ret "" (some ⟨NOTIMPLEMENTED, .Basic kind⟩)
  | .Map _ elem =>
    match TypeToTypeScript elem with
    | .panic => .panic
    | .ret _ (some err) => .ret "" (some err)
    | .ret value none =>
      let keyValue := value
      match TypeToTypeScript elem with
      | .panic => .panic
      | .ret _ (some err) => .ret "" (some err)
      | .ret value none => .ret ("Map<" ++ keyValue ++ ", " ++ value ++ ">") none
  | .Named name _ => .ret name none
  | .Pointer elem =>
    match TypeToTypeScript elem with
    | .panic => .panic
    | .ret _ (some err) => .ret "" (some err)
    | .ret value none => .ret ("[null | " ++ value ++ "]") none
  | .Slice elem =>
    match TypeToTypeScript elem with
    | .panic => .panic
    | .ret _ (some err) => .ret "" (some err)
    | .ret value none => .ret ("[]" ++ value) none
  | .Tuple vars =>
    match TupleToTypeScript vars with
    | none => .panic
    | some s => .ret s none
  | .Union terms => UnionToTypeScript.loop terms ""
  | .Chan elem => .ret "" (some ⟨NOTIMPLEMENTED, .Chan elem⟩)
  | .Signature params results => .ret "" (some ⟨NOTIMPLEMENTED, .Signature params results⟩)
  | .Interface embeddeds => .ret "" (some ⟨NOTIMPLEMENTED, .Interface embeddeds⟩)
  | .TypeParam name => .ret "" (some ⟨NOTIMPLEMENTED, .TypeParam name⟩)

/-- The loop of `StructToTypeScript`: `s` holds all fields of the struct (for the error
value), the list the fields from index `i` on, and the string the builder. -/
def StructToTypeScript.loop (s : List (String × GoType)) :
    List (String × GoType) → String → Result
  | [], definitionBuilder => .ret (definitionBuilder ++ "\x7d") none
  | (name, type) :: rest, definitionBuilder =>
    if name == "" then .ret "" (some ⟨EMBEDDEDFIELD, .Struct s⟩)
    else
      match TypeToTypeScript type with
      | .panic => .panic
      | .ret _ (some err) => .ret "" (some err)
      | .ret value none =>
        StructToTypeScript.loop s rest (definitionBuilder ++ "  " ++ name ++ " " ++ value ++ "\n")

/-- The loop of `UnionToTypeScript`, followed by the slice expression that drops the last
separator. -/
def UnionToTypeScript.loop : List GoType → String → Result
  | [], definitionBuilder =>
    match sliceTo definitionBuilder ((definitionBuilder.utf8ByteSize : Int) - 3) with
    | none => .panic
    | some s => .ret s none
  | type :: rest, definitionBuilder =>
    match TypeToTypeScript type with
    | .panic => .panic
    | .ret _ (some err) => .ret "" (some err)
    | .ret value none => UnionToTypeScript.loop rest (definitionBuilder ++ value ++ " | ")
end

/-- The function `StructToTypeScript` on the struct with the given fields: the builder starts with the
opening brace.  The struct arm of `TypeToTypeScript` is this call. -/
def StructToTypeScript (fields : List (String × GoType)) : Result :=
  StructToTypeScript.loop fields fields "\x7b\n"

/-- The function `UnionToTypeScript` on the union with the given terms: the builder starts empty.  The
union arm of `TypeToTypeScript` is this call. -/
def UnionToTypeScript (terms : List GoType) : Result :=
  UnionToTypeScript.loop terms ""

/-! ## The declaration loop -/

/-- The implementations of `types.Object` that a package scope holds. -/
inductive ObjectKind
  | TypeName | Var | Const | Func | PkgName
  deriving DecidableEq

/-- A `types.Object`: its name and the type `Type()` returns. -/
structure Object where
  name : String
  kind : ObjectKind
  type : GoType

/-- The package scope: its objects, in the order the source declares them. -/
abbrev Scope := List Object

/-- Go's `a < b` on the characters of two strings: lexicographic order, which on UTF-8
text is the order of the bytes. -/
def lessChars : List Char → List Char → Bool
  | _, [] => false
  | [], _ :: _ => true
  | a :: as, b :: bs =>
    if a.toNat < b.toNat then true
    else if b.toNat < a.toNat then false
    else lessChars as bs

/-- Go's `a < b` on strings. -/
def stringLess (a b : String) : Bool :=
  lessChars a.data b.data

/-- The method `Scope.Names`: the names of the scope's objects in sorted order (`sort.Strings`,
ascending: no name stands before a smaller one). -/
def Scope.Names (s : Scope) : List String :=
  (s.map (·.name)).insertionSort (fun a b => stringLess b a = false)

/-- The method `Scope.Lookup`: the object of the given name. -/
def Scope.Lookup (s : Scope) (name : String) : Option Object :=
  s.find? (fun o => o.name == name)

/-- What a run of the declaration loop does: it returns after writing `written` to the
destination, or it panics after writing `written`. -/
inductive Run
  | returned (written : String)
  | panicked (written : String)

/-- The loop of `ConvertGoFile` over the remaining names, `dst` being what the
destination file holds so far.  An object is written when its type is a `Named`, with the
translation of that type's underlying type; a name without an object would be a nil
dereference. -/
def ConvertGoFile.loop (pkg : Scope) : List String → String → Run
  | [], dst => .returned dst
  | name :: names, dst =>
    match pkg.Lookup name with
    | none => .panicked dst
    | some object =>
      match object.type with
      | .Named _ underlying =>
        match TypeToTypeScript underlying with
        | .panic => .panicked dst
        | .ret _ (some _) => ConvertGoFile.loop pkg names dst
        | .ret value none =>
          ConvertGoFile.loop pkg names (dst ++ "type " ++ object.name ++ " = " ++ value ++ "\n")
      | _ => ConvertGoFile.loop pkg names dst

/-- The function `ConvertGoFile` from the type-checked package on: the text it writes to an empty
destination. -/
def ConvertGoFile (pkg : Scope) : Run :=
  ConvertGoFile.loop pkg pkg.Names ""

/-- The object a type declaration `type name underlying` puts into the scope. -/
def typeDecl (d : String × GoType) : Object :=
  ⟨d.1, .TypeName, .Named d.1 d.2⟩

/-- The struct field that the type checker makes of an embedded field: go/types gives it
the name of its type (`string` for an embedded `string`, `T` for an embedded `T` or
`*T`) and sets its `Embedded` flag, which the program never reads.  A field that comes
from a source file therefore never has the empty name. -/
def embeddedField (typeName : String) (type : GoType) : String × GoType :=
  (typeName, type)

/-! ## Predicates on types used by the statements -/

/-- The type has one of the ten cases of the type switch of `TypeToTypeScript`. -/
def GoType.hasCase : GoType → Bool
  | .Struct _ | .Alias _ _ | .Array _ _ | .Basic _ | .Map _ _ | .Named _ _
  | .Pointer _ | .Slice _ | .Tuple _ | .Union _ => true
  | _ => false

mutual
/-- The type is built only from boolean, non-complex numeric and string basics and from
struct, array, slice, map, pointer, named and alias nodes, and no struct field in it has
an empty name.  A named or alias node counts whatever it stands for. -/
def GoType.supported : GoType → Bool
  | .Basic kind =>
    decide (kind.Info &&& IsBoolean > 0) ||
    (decide (kind.Info &&& IsNumeric > 0) && decide (kind.Info &&& IsComplex = 0)) ||
    decide (kind.Info &&& IsString > 0)
  | .Struct fields => GoType.supportedFields fields
  | .Array elem _ => elem.supported
  | .Slice elem => elem.supported
  | .Pointer elem => elem.supported
  | .Map key elem => key.supported && elem.supported
  | .Named _ _ => true
  | .Alias _ _ => true
  | _ => false

/-- Every field has a non-empty name and a supported type. -/
def GoType.supportedFields : List (String × GoType) → Bool
  | [] => true
  | (name, type) :: rest => name != "" && type.supported && GoType.supportedFields rest
end

mutual
/-- Every tuple and every union that the translator visits in the type has at least one
element.  Types from the type checker are of this form: go/types builds no union
without terms, and a tuple stands only for the parameters or results of a signature,
which the translator does not enter. -/
def GoType.listsNonEmpty : GoType → Bool
  | .Struct fields => GoType.listsNonEmptyFields fields
  | .Array elem _ => elem.listsNonEmpty
  | .Slice elem => elem.listsNonEmpty
  | .Pointer elem => elem.listsNonEmpty
  | .Map _ elem => elem.listsNonEmpty
  | .Tuple vars => !vars.isEmpty
  | .Union terms => !terms.isEmpty && GoType.listsNonEmptyTerms terms
  | _ => true

/-- Every field type has the property `listsNonEmpty`. -/
def GoType.listsNonEmptyFields : List (String × GoType) → Bool
  | [] => true
  | (_, type) :: rest => type.listsNonEmpty && GoType.listsNonEmptyFields rest

/-- Every term type has the property `listsNonEmpty`. -/
def GoType.listsNonEmptyTerms : List GoType → Bool
  | [] => true
  | type :: rest => type.listsNonEmpty && GoType.listsNonEmptyTerms rest
end

/-- The line the specification gives a declaration `(name, underlying type)`: the
declaration text when the translation of the underlying type is a success, nothing
otherwise. -/
def declarationLine (d : String × GoType) : Option String :=
  match TypeToTypeScript d.2 with
  | .ret value none => some ("type " ++ d.1 ++ " = " ++ value ++ "\n")
  | _ => none

/-- The node is one that `TypeToTypeScript` itself rejects: a basic type with the complex
flag or with none of the boolean, numeric and string flags, or a type without a case in
the type switch. -/
def GoType.unsupportedNode : GoType → Bool
  | .Basic kind =>
    decide (kind.Info &&& IsComplex > 0) ||
    (decide (kind.Info &&& IsBoolean = 0) && decide (kind.Info &&& IsNumeric = 0) &&
      decide (kind.Info &&& IsString = 0))
  | t => !t.hasCase

/-- The node `n` is `t` itself or is reached from `t` through array, slice and pointer
elements, map values, struct field types and union terms.  Nothing is reached through a
map key, a tuple element, or what a named or alias node stands for. -/
inductive GoType.Reaches : GoType → GoType → Prop
  | self (t : GoType) : GoType.Reaches t t
  | array {elem n : GoType} (len : Int) : GoType.Reaches elem n →
      GoType.Reaches (.Array elem len) n
  | slice {elem n : GoType} : GoType.Reaches elem n → GoType.Reaches (.Slice elem) n
  | pointer {elem n : GoType} : GoType.Reaches elem n → GoType.Reaches (.Pointer elem) n
  | mapValue {elem n : GoType} (key : GoType) : GoType.Reaches elem n →
      GoType.Reaches (.Map key elem) n
  | field {fields : List (String × GoType)} {f : String × GoType} {n : GoType} :
      f ∈ fields → GoType.Reaches f.2 n → GoType.Reaches (.Struct fields) n
  | term {terms : List GoType} {type n : GoType} :
      type ∈ terms → GoType.Reaches type n → GoType.Reaches (.Union terms) n

/-- The error names a culprit inside `t`: it is the unsupported-type error on a node
reached from `t` that `TypeToTypeScript` itself rejects, or the embedded-field error on a
struct reached from `t` that has a field with an empty name. -/
def Culprit (t : GoType) (err : typeError) : Prop :=
  (err.text = NOTIMPLEMENTED ∧ t.Reaches err.errorType ∧
    err.errorType.unsupportedNode = true) ∨
  (err.text = EMBEDDEDFIELD ∧ t.Reaches err.errorType ∧
    ∃ fields, err.errorType = .Struct fields ∧ ∃ f ∈ fields, f.1 = "")

/-- The struct `Test1` of `ToTypeScriptTypes_test.go`. -/
def Test1 : GoType :=
  .Struct [("a", .Basic .Bool), ("b", .Basic .Int), ("c", .Basic .String),
    ("d", .Array (.Basic .Int) 2), ("e", .Slice (.Basic .String)),
    ("f", .Map (.Basic .Int) (.Basic .String))]

/-- The struct `Test2` of `ToTypeScriptTypes_test.go`: its fields have the named types
`Alias` and `Test1`. -/
def Test2 : GoType :=
  .Struct [("a", .Named "Alias" (.Basic .String)), ("b", .Named "Test1" Test1)]

/-- The package scope of `ToTypeScriptTypes_test.go`, in the order of the source. -/
def testTypesScope : Scope :=
  [typeDecl ("Alias", .Basic .String),
   typeDecl ("Union", .Interface [.Union [.Basic .Int, .Basic .String, .Basic .Bool]]),
   typeDecl ("Test1", Test1),
   typeDecl ("Test2", Test2),
   typeDecl ("ignored1", .Interface []),
   typeDecl ("ignored2", .Chan (.Basic .String))]

/-- The end-to-end scenario: `Alias`, `Test1`, `Test2` and two declarations with
unsupported underlying types (`interface{}` and `chan string`). -/
def scenarioScope : Scope :=
  [typeDecl ("Alias", .Basic .String),
   typeDecl ("Test1", Test1),
   typeDecl ("Test2", Test2),
   typeDecl ("ignored1", .Interface []),
   typeDecl ("ignored2", .Chan (.Basic .String))]

/-! ## Lemmas on strings and results -/

theorem join_cons (a : String) (l : List String) :
    String.join (a :: l) = a ++ String.join l := by
  apply String.ext
  simp [String.join_eq]

theorem Result.eq_of_isSuccess {r : Result} (h : r.isSuccess = true) :
    r = .ret r.value none := by
  cases r with
  | panic => simp [Result.isSuccess] at h
  | ret value err =>
    cases err with
    | none => rfl
    | some e => simp [Result.isSuccess] at h

theorem structLoop_error_text (s : List (String × GoType)) :
    ∀ (fields : List (String × GoType)) (b value : String) (err : typeError),
      StructToTypeScript.loop s fields b = .ret value (some err) → value = ""
  | [], b, value, err, h => by simp [StructToTypeScript.loop] at h
  | (name, type) :: rest, b, value, err, h => by
    rw [StructToTypeScript.loop] at h
    split at h
    · cases h; rfl
    · split at h
      · cases h
      · cases h; rfl
      · exact structLoop_error_text s rest _ value err h

theorem unionLoop_error_text :
    ∀ (terms : List GoType) (b value : String) (err : typeError),
      UnionToTypeScript.loop terms b = .ret value (some err) → value = ""
  | [], b, value, err, h => by
    rw [UnionToTypeScript.loop] at h
    split at h <;> cases h
  | type :: rest, b, value, err, h => by
    rw [UnionToTypeScript.loop] at h
    split at h
    · cases h
    · cases h; rfl
    · exact unionLoop_error_text rest _ value err h

/-- Every error return of `TypeToTypeScript` carries the empty string. -/
theorem TypeToTypeScript_error_text (t : GoType) (value : String) (err : typeError)
    (h : TypeToTypeScript t = .ret value (some err)) : value = "" := by
  cases t with
  | Struct fields =>
    rw [TypeToTypeScript] at h
    exact structLoop_error_text _ _ _ _ _ h
  | Union terms =>
    rw [TypeToTypeScript] at h
    exact unionLoop_error_text _ _ _ _ h
  | Basic kind =>
    rw [TypeToTypeScript] at h
    split_ifs at h <;> first | (cases h; done) | (cases h; rfl)
  | Tuple vars =>
    rw [TypeToTypeScript] at h
    split at h <;> cases h
  | Map key elem =>
    rw [TypeToTypeScript] at h
    split at h
    · cases h
    · cases h; rfl
    · cases h
  | Named _ _ | Alias _ _ =>
    rw [TypeToTypeScript] at h
    cases h
  | Array elem _ | Slice elem | Pointer elem =>
    rw [TypeToTypeScript] at h
    split at h
    · cases h
    · cases h; rfl
    · cases h
  | Chan _ | Signature _ _ | Interface _ | TypeParam _ =>
    rw [TypeToTypeScript] at h
    cases h; rfl

/-- A call that is not a success leaves the element's outcome unchanged when it is passed
up with the empty string. -/
theorem Result.failure_passed_up (t : GoType) :
    (match TypeToTypeScript t with
      | .panic => Result.panic
      | .ret _ (some err) => .ret "" (some err)
      | .ret value none => .ret value none) = TypeToTypeScript t := by
  cases hr : TypeToTypeScript t with
  | panic => rfl
  | ret value err =>
    cases err with
    | none => rfl
    | some e =>
      have := TypeToTypeScript_error_text t value e hr
      subst this
      rfl

/-! ## The map arm -/

/-- C2 (the code at the failing input): for `map[int]string` the key type translates to
"number" and the value type to "string", yet the map translates to
"Map<string, string>": the first type parameter comes from the value node. -/
theorem TypeToTypeScript_map_int_string :
    TypeToTypeScript (.Basic .Int) = .ret "number" none ∧
    TypeToTypeScript (.Basic .String) = .ret "string" none ∧
    TypeToTypeScript (.Map (.Basic .Int) (.Basic .String)) = .ret "Map<string, string>" none :=
  ⟨rfl, rfl, rfl⟩

/-- C3: for every map type whose value type translates successfully to `text`, the map
translates to "Map<" + text + ", " + text + ">", whatever the key type is. -/
theorem TypeToTypeScript_map_value_twice (k v : GoType) (text : String)
    (hv : TypeToTypeScript v = .ret text none) :
    TypeToTypeScript (.Map k v) = .ret ("Map<" ++ text ++ ", " ++ text ++ ">") none := by
  rw [TypeToTypeScript]
  simp only [hv]

/-- C3 at the field `f map[int]string` of the example test: the map gives
"Map<string, string>" and the struct holding it the field line "  f Map<string, string>". -/
theorem TypeToTypeScript_map_value_twice_witness :
    TypeToTypeScript (.Basic .String) = .ret "string" none ∧
    TypeToTypeScript (.Map (.Basic .Int) (.Basic .String)) = .ret "Map<string, string>" none ∧
    StructToTypeScript [("f", .Map (.Basic .Int) (.Basic .String))] =
      .ret "\x7b\n  f Map<string, string>\n\x7d" none :=
  ⟨rfl, TypeToTypeScript_map_value_twice (.Basic .Int) (.Basic .String) "string" rfl, rfl⟩

/-! ## The basic arm and the default arm -/

/-- C5: a basic type with the boolean flag translates to exactly "bool", one with a
numeric flag and without the complex flag to exactly "number", one with the string flag
to exactly "string", each time with a nil error. -/
theorem TypeToTypeScript_basic_literals (kind : BasicKind) :
    (kind.Info &&& IsBoolean > 0 → TypeToTypeScript (.Basic kind) = .ret "bool" none) ∧
    (kind.Info &&& IsNumeric > 0 → kind.Info &&& IsComplex = 0 →
      TypeToTypeScript (.Basic kind) = .ret "number" none) ∧
    (kind.Info &&& IsString > 0 → TypeToTypeScript (.Basic kind) = .ret "string" none) := by
  cases kind <;> refine ⟨?_, ?_, ?_⟩ <;>
    first
    | (intro _; rfl)
    | (intro _ _; rfl)
    | (intro h; exact absurd h (by decide))
    | (intro _ h; exact absurd h (by decide))

/-- C5 at `bool`, `float64` and `string`. -/
theorem TypeToTypeScript_basic_literals_witness :
    TypeToTypeScript (.Basic .Bool) = .ret "bool" none ∧
    TypeToTypeScript (.Basic .Float64) = .ret "number" none ∧
    TypeToTypeScript (.Basic .String) = .ret "string" none :=
  ⟨(TypeToTypeScript_basic_literals .Bool).1 (by decide),
   (TypeToTypeScript_basic_literals .Float64).2.1 (by decide) (by decide),
   (TypeToTypeScript_basic_literals .String).2.2 (by decide)⟩

/-- C6: a complex basic type carries the numeric flag and still fails with "Type is
unsupported" and itself as the offending type; so does a basic type that has none of the
boolean, numeric and string flags; so does every type that has no case in the type
switch (channel, signature, interface, type parameter). -/
theorem TypeToTypeScript_unsupported (kind : BasicKind) (t : GoType) :
    (kind.Info &&& IsComplex > 0 →
      kind.Info &&& IsNumeric > 0 ∧
      TypeToTypeScript (.Basic kind) = .ret "" (some ⟨NOTIMPLEMENTED, .Basic kind⟩)) ∧
    (kind.Info &&& IsBoolean = 0 → kind.Info &&& IsNumeric = 0 → kind.Info &&& IsString = 0 →
      TypeToTypeScript (.Basic kind) = .ret "" (some ⟨NOTIMPLEMENTED, .Basic kind⟩)) ∧
    (t.hasCase = false → TypeToTypeScript t = .ret "" (some ⟨NOTIMPLEMENTED, t⟩)) := by
  refine ⟨?_, ?_, ?_⟩
  · cases kind <;>
      first
      | (intro _; exact ⟨by decide, rfl⟩)
      | (intro h; exact absurd h (by decide))
  · cases kind <;>
      first
      | (intro _ _ _; rfl)
      | (intro h _ _; exact absurd h (by decide))
      | (intro _ h _; exact absurd h (by decide))
      | (intro _ _ h; exact absurd h (by decide))
  · intro h
    cases t <;> first | rfl | (simp [GoType.hasCase] at h)

/-- C6 at `complex128`, `unsafe.Pointer` and `chan string`. -/
theorem TypeToTypeScript_unsupported_witness :
    TypeToTypeScript (.Basic .Complex128) =
      .ret "" (some ⟨"Type is unsupported", .Basic .Complex128⟩) ∧
    TypeToTypeScript (.Basic .UnsafePointer) =
      .ret "" (some ⟨"Type is unsupported", .Basic .UnsafePointer⟩) ∧
    TypeToTypeScript (.Chan (.Basic .String)) =
      .ret "" (some ⟨"Type is unsupported", .Chan (.Basic .String)⟩) :=
  ⟨((TypeToTypeScript_unsupported .Complex128 (.Chan (.Basic .String))).1 (by decide)).2,
   (TypeToTypeScript_unsupported .UnsafePointer (.Chan (.Basic .String))).2.1
     (by decide) (by decide) (by decide),
   (TypeToTypeScript_unsupported .Complex128 (.Chan (.Basic .String))).2.2 rfl⟩

/-! ## The array, slice and pointer arms -/

/-- C9: an array translates exactly as the slice of its element type, whatever its
length: to "[]" + text when the element translates to `text`, and to the element's own
outcome when the element fails; `[2]int` and `[]int` both give "[]number". -/
theorem TypeToTypeScript_array_eq_slice (e : GoType) (n : Int) :
    TypeToTypeScript (.Array e n) = TypeToTypeScript (.Slice e) ∧
    (∀ text, TypeToTypeScript e = .ret text none →
      TypeToTypeScript (.Slice e) = .ret ("[]" ++ text) none) ∧
    ((TypeToTypeScript e).isSuccess = false →
      TypeToTypeScript (.Slice e) = TypeToTypeScript e) ∧
    TypeToTypeScript (.Array (.Basic .Int) 2) = .ret "[]number" none ∧
    TypeToTypeScript (.Slice (.Basic .Int)) = .ret "[]number" none := by
  refine ⟨?_, ?_, ?_, rfl, rfl⟩
  · rw [TypeToTypeScript, TypeToTypeScript]
  · intro text h
    rw [TypeToTypeScript]
    simp only [h]
  · intro h
    rw [TypeToTypeScript]
    have key := Result.failure_passed_up e
    cases hr : TypeToTypeScript e with
    | panic => rfl
    | ret value err =>
      cases err with
      | none => simp [hr, Result.isSuccess] at h
      | some er =>
        rw [hr] at key
        exact key

/-- C9 at the element types `string` (a success) and `chan int` (a failure), with
lengths 7 and 0. -/
theorem TypeToTypeScript_array_eq_slice_witness :
    TypeToTypeScript (.Array (.Basic .String) 7) = TypeToTypeScript (.Slice (.Basic .String)) ∧
    TypeToTypeScript (.Slice (.Basic .String)) = .ret "[]string" none ∧
    TypeToTypeScript (.Slice (.Chan (.Basic .Int))) = TypeToTypeScript (.Chan (.Basic .Int)) :=
  ⟨(TypeToTypeScript_array_eq_slice (.Basic .String) 7).1,
   (TypeToTypeScript_array_eq_slice (.Basic .String) 7).2.1 "string" rfl,
   (TypeToTypeScript_array_eq_slice (.Chan (.Basic .Int)) 0).2.2.1 rfl⟩

/-- C10: a pointer translates to "[null | " + text + "]" when its element translates to
`text`, and to the element's own outcome, unchanged, when the element fails; `*string`
gives "[null | string]". -/
theorem TypeToTypeScript_pointer (e : GoType) :
    (∀ text, TypeToTypeScript e = .ret text none →
      TypeToTypeScript (.Pointer e) = .ret ("[null | " ++ text ++ "]") none) ∧
    ((TypeToTypeScript e).isSuccess = false →
      TypeToTypeScript (.Pointer e) = TypeToTypeScript e) ∧
    TypeToTypeScript (.Pointer (.Basic .String)) = .ret "[null | string]" none := by
  refine ⟨?_, ?_, rfl⟩
  · intro text h
    rw [TypeToTypeScript]
    simp only [h]
  · intro h
    rw [TypeToTypeScript]
    have key := Result.failure_passed_up e
    cases hr : TypeToTypeScript e with
    | panic => rfl
    | ret value err =>
      cases err with
      | none => simp [hr, Result.isSuccess] at h
      | some er =>
        rw [hr] at key
        exact key

/-- C10 at the element types `bool` (a success) and `complex64` (a failure). -/
theorem TypeToTypeScript_pointer_witness :
    TypeToTypeScript (.Pointer (.Basic .Bool)) = .ret "[null | bool]" none ∧
    TypeToTypeScript (.Pointer (.Basic .Complex64)) = TypeToTypeScript (.Basic .Complex64) :=
  ⟨(TypeToTypeScript_pointer (.Basic .Bool)).1 "bool" rfl,
   (TypeToTypeScript_pointer (.Basic .Complex64)).2.1 rfl⟩

/-! ## The struct arm -/

theorem structLoop_success (s : List (String × GoType)) :
    ∀ (fields : List (String × GoType)) (b : String),
      (∀ f ∈ fields, f.1 ≠ "" ∧ (TypeToTypeScript f.2).isSuccess = true) →
      StructToTypeScript.loop s fields b =
        .ret (b ++ String.join (fields.map fun f =>
          "  " ++ f.1 ++ " " ++ (TypeToTypeScript f.2).value ++ "\n") ++ "\x7d") none
  | [], b, _ => by
    rw [StructToTypeScript.loop]
    show Result.ret (b ++ "\x7d") none = Result.ret (b ++ "" ++ "\x7d") none
    rw [String.append_empty]
  | (name, type) :: rest, b, h => by
    have hhead := h (name, type) (List.mem_cons_self _ _)
    have htail : ∀ f ∈ rest, f.1 ≠ "" ∧ (TypeToTypeScript f.2).isSuccess = true :=
      fun f hf => h f (List.mem_cons_of_mem _ hf)
    have hname : (name == "") = false := by simpa using hhead.1
    have hty := Result.eq_of_isSuccess hhead.2
    rw [StructToTypeScript.loop]
    simp only [hname]
    rw [hty]
    simp only [Bool.false_eq_true, if_false]
    rw [structLoop_success s rest _ htail]
    simp only [List.map_cons, join_cons, Result.value, String.append_assoc]

mutual
theorem GoType.supported_success :
    (t : GoType) → t.supported = true → (TypeToTypeScript t).isSuccess = true
  | .Basic kind, h => by
    cases kind <;> first | rfl | (exact absurd h (by decide))
  | .Struct fields, h => by
    rw [GoType.supported] at h
    rw [TypeToTypeScript, structLoop_success fields fields _
      (GoType.supportedFields_success fields h)]
    rfl
  | .Array elem _, h => by
    rw [GoType.supported] at h
    have := Result.eq_of_isSuccess (GoType.supported_success elem h)
    rw [TypeToTypeScript, this]
    rfl
  | .Slice elem, h => by
    rw [GoType.supported] at h
    have := Result.eq_of_isSuccess (GoType.supported_success elem h)
    rw [TypeToTypeScript, this]
    rfl
  | .Pointer elem, h => by
    rw [GoType.supported] at h
    have := Result.eq_of_isSuccess (GoType.supported_success elem h)
    rw [TypeToTypeScript, this]
    rfl
  | .Map key elem, h => by
    rw [GoType.supported, Bool.and_eq_true] at h
    have := Result.eq_of_isSuccess (GoType.supported_success elem h.2)
    rw [TypeToTypeScript, this]
    rfl
  | .Named _ _, _ => rfl
  | .Alias _ _, _ => rfl
  | .Tuple _, h => by simp [GoType.supported] at h
  | .Union _, h => by simp [GoType.supported] at h
  | .Chan _, h => by simp [GoType.supported] at h
  | .Signature _ _, h => by simp [GoType.supported] at h
  | .Interface _, h => by simp [GoType.supported] at h
  | .TypeParam _, h => by simp [GoType.supported] at h

theorem GoType.supportedFields_success :
    (fields : List (String × GoType)) → GoType.supportedFields fields = true →
      ∀ f ∈ fields, f.1 ≠ "" ∧ (TypeToTypeScript f.2).isSuccess = true
  | [], _ => by simp
  | (name, type) :: rest, h => by
    rw [GoType.supportedFields, Bool.and_eq_true, Bool.and_eq_true] at h
    intro f hf
    rcases List.mem_cons.1 hf with rfl | hf
    · exact ⟨by simpa using h.1.1, GoType.supported_success type h.1.2⟩
    · exact GoType.supportedFields_success rest h.2 f hf
end

/-- C4: every type built only from boolean, non-complex numeric and string basics and
from struct, array, slice, map, pointer, named and alias nodes, with no empty field name,
translates to a success: `TypeToTypeScript` returns some text with a nil error. -/
theorem TypeToTypeScript_supported_succeeds (t : GoType) (h : t.supported = true) :
    ∃ text, TypeToTypeScript t = .ret text none :=
  ⟨_, Result.eq_of_isSuccess (GoType.supported_success t h)⟩

/-- C4 at a struct that nests every supported kind of node. -/
theorem TypeToTypeScript_supported_succeeds_witness :
    (GoType.Struct [("a", .Basic .Bool), ("b", .Pointer (.Basic .Uint8)),
        ("c", .Map (.Basic .String) (.Slice (.Array (.Basic .Float32) 4))),
        ("d", .Named "T" (.Chan (.Basic .Int))), ("e", .Alias "A" (.Basic .Int)),
        ("f", .Struct [])]).supported = true ∧
    ∃ text, TypeToTypeScript (.Struct [("a", .Basic .Bool), ("b", .Pointer (.Basic .Uint8)),
        ("c", .Map (.Basic .String) (.Slice (.Array (.Basic .Float32) 4))),
        ("d", .Named "T" (.Chan (.Basic .Int))), ("e", .Alias "A" (.Basic .Int)),
        ("f", .Struct [])]) = .ret text none :=
  ⟨rfl, TypeToTypeScript_supported_succeeds _ rfl⟩

/-- C7: for a struct whose fields all have a non-empty name and a type that translates
successfully, `StructToTypeScript` returns the opening brace line, then one line
"  " + name + " " + translated type per field in declared order, then the closing brace,
with a nil error. -/
theorem StructToTypeScript_success (fields : List (String × GoType))
    (h : ∀ f ∈ fields, f.1 ≠ "" ∧ (TypeToTypeScript f.2).isSuccess = true) :
    StructToTypeScript fields =
      .ret ("\x7b\n" ++ String.join (fields.map fun f =>
        "  " ++ f.1 ++ " " ++ (TypeToTypeScript f.2).value ++ "\n") ++ "\x7d") none :=
  structLoop_success fields fields "\x7b\n" h

/-- C7 at the empty struct, which yields the two braces, and at a struct of three fields
whose names are not in alphabetical order. -/
theorem StructToTypeScript_success_witness :
    StructToTypeScript [] = .ret "\x7b\n\x7d" none ∧
    StructToTypeScript [("z", .Basic .Bool), ("a", .Slice (.Basic .Int)),
        ("m", .Named "Alias" (.Basic .String))] =
      .ret "\x7b\n  z bool\n  a []number\n  m Alias\n\x7d" none :=
  ⟨StructToTypeScript_success [] (by simp),
   StructToTypeScript_success [("z", .Basic .Bool), ("a", .Slice (.Basic .Int)),
        ("m", .Named "Alias" (.Basic .String))] (by
      intro f hf
      simp only [List.mem_cons, List.mem_singleton, List.not_mem_nil, or_false] at hf
      rcases hf with rfl | rfl | rfl <;> exact ⟨by decide, rfl⟩)⟩

/-! ## Types on which the translator returns -/

theorem utf8ByteSize_append (a b : String) :
    (a ++ b).utf8ByteSize = a.utf8ByteSize + b.utf8ByteSize := by
  cases a with
  | mk as =>
    cases b with
    | mk bs =>
      show String.utf8ByteSize ⟨as ++ bs⟩ = _
      simp only [String.utf8ByteSize_mk, String.utf8Len_append]

theorem sliceTo_isSome (s : String) (k : Nat) (h : k ≤ s.utf8ByteSize) :
    ∃ r, sliceTo s ((s.utf8ByteSize : Int) - k) = some r := by
  unfold sliceTo
  rw [if_neg]
  · exact ⟨_, rfl⟩
  · omega

theorem tupleLoop_size :
    ∀ (vars : List (String × GoType)) (b : String),
      b.utf8ByteSize + 2 * vars.length ≤ (TupleToTypeScript.loop vars b).utf8ByteSize
  | [], b => by simp [TupleToTypeScript.loop]
  | (name, _) :: rest, b => by
    rw [TupleToTypeScript.loop]
    have h := tupleLoop_size rest (b ++ name ++ ", ")
    rw [utf8ByteSize_append, utf8ByteSize_append] at h
    have h2 : (", " : String).utf8ByteSize = 2 := by decide
    simp only [List.length_cons]
    omega

theorem TupleToTypeScript_isSome (vars : List (String × GoType)) (h : vars ≠ []) :
    ∃ s, TupleToTypeScript vars = some s := by
  have hsize := tupleLoop_size vars "["
  have hlen : 1 ≤ vars.length := List.length_pos.2 h
  obtain ⟨r, hr⟩ := sliceTo_isSome (TupleToTypeScript.loop vars "[") 2 (by omega)
  refine ⟨r ++ "]", ?_⟩
  unfold TupleToTypeScript
  simp only [Nat.cast_ofNat] at hr
  simp only [hr]

theorem structLoop_returns (s : List (String × GoType)) :
    ∀ (fields : List (String × GoType)) (b : String),
      (∀ f ∈ fields, TypeToTypeScript f.2 ≠ .panic) →
      StructToTypeScript.loop s fields b ≠ .panic
  | [], b, _ => by simp [StructToTypeScript.loop]
  | (name, type) :: rest, b, h => by
    have hhead := h (name, type) (List.mem_cons_self _ _)
    have htail : ∀ f ∈ rest, TypeToTypeScript f.2 ≠ .panic :=
      fun f hf => h f (List.mem_cons_of_mem _ hf)
    rw [StructToTypeScript.loop]
    split
    · simp
    · split
      · rename_i heq
        exact absurd heq hhead
      · simp
      · exact structLoop_returns s rest _ htail

theorem unionLoop_returns :
    ∀ (terms : List GoType) (b : String),
      (∀ t ∈ terms, TypeToTypeScript t ≠ .panic) →
      (terms ≠ [] ∨ 3 ≤ b.utf8ByteSize) →
      UnionToTypeScript.loop terms b ≠ .panic
  | [], b, _, hb => by
    have hb3 : 3 ≤ b.utf8ByteSize := by
      rcases hb with hb | hb
      · exact absurd rfl hb
      · exact hb
    obtain ⟨r, hr⟩ := sliceTo_isSome b 3 hb3
    rw [UnionToTypeScript.loop]
    simp only [Nat.cast_ofNat] at hr
    simp [hr]
  | type :: rest, b, h, _ => by
    have hhead := h type (List.mem_cons_self _ _)
    have htail : ∀ t ∈ rest, TypeToTypeScript t ≠ .panic :=
      fun t ht => h t (List.mem_cons_of_mem _ ht)
    rw [UnionToTypeScript.loop]
    split
    · rename_i heq
      exact absurd heq hhead
    · simp
    · refine unionLoop_returns rest _ htail (Or.inr ?_)
      have h3 : (" | " : String).utf8ByteSize = 3 := by decide
      rw [utf8ByteSize_append, h3]
      omega

mutual
theorem GoType.listsNonEmpty_returns :
    (t : GoType) → t.listsNonEmpty = true → TypeToTypeScript t ≠ .panic
  | .Basic kind, _ => by
    rw [TypeToTypeScript]
    split_ifs <;> simp
  | .Struct fields, h => by
    rw [GoType.listsNonEmpty] at h
    rw [TypeToTypeScript]
    exact structLoop_returns fields fields _
      (GoType.listsNonEmptyFields_returns fields h)
  | .Array elem _, h => by
    rw [GoType.listsNonEmpty] at h
    have := GoType.listsNonEmpty_returns elem h
    rw [TypeToTypeScript]
    split <;> simp_all
  | .Slice elem, h => by
    rw [GoType.listsNonEmpty] at h
    have := GoType.listsNonEmpty_returns elem h
    rw [TypeToTypeScript]
    split <;> simp_all
  | .Pointer elem, h => by
    rw [GoType.listsNonEmpty] at h
    have := GoType.listsNonEmpty_returns elem h
    rw [TypeToTypeScript]
    split <;> simp_all
  | .Map _ elem, h => by
    rw [GoType.listsNonEmpty] at h
    have := GoType.listsNonEmpty_returns elem h
    rw [TypeToTypeScript]
    split <;> simp_all
  | .Named _ _, _ => by simp [TypeToTypeScript]
  | .Alias _ _, _ => by simp [TypeToTypeScript]
  | .Tuple vars, h => by
    rw [GoType.listsNonEmpty] at h
    have hne : vars ≠ [] := by
      intro hnil
      subst hnil
      simp at h
    obtain ⟨s, hs⟩ := TupleToTypeScript_isSome vars hne
    rw [TypeToTypeScript, hs]
    simp
  | .Union terms, h => by
    rw [GoType.listsNonEmpty, Bool.and_eq_true] at h
    have hne : terms ≠ [] := by
      intro hnil
      subst hnil
      simp at h
    rw [TypeToTypeScript]
    exact unionLoop_returns terms _
      (GoType.listsNonEmptyTerms_returns terms h.2) (Or.inl hne)
  | .Chan _, _ => by simp [TypeToTypeScript]
  | .Signature _ _, _ => by simp [TypeToTypeScript]
  | .Interface _, _ => by simp [TypeToTypeScript]
  | .TypeParam _, _ => by simp [TypeToTypeScript]

theorem GoType.listsNonEmptyFields_returns :
    (fields : List (String × GoType)) → GoType.listsNonEmptyFields fields = true →
      ∀ f ∈ fields, TypeToTypeScript f.2 ≠ .panic
  | [], _ => by simp
  | (name, type) :: rest, h => by
    rw [GoType.listsNonEmptyFields, Bool.and_eq_true] at h
    intro f hf
    rcases List.mem_cons.1 hf with rfl | hf
    · exact GoType.listsNonEmpty_returns type h.1
    · exact GoType.listsNonEmptyFields_returns rest h.2 f hf

theorem GoType.listsNonEmptyTerms_returns :
    (terms : List GoType) → GoType.listsNonEmptyTerms terms = true →
      ∀ t ∈ terms, TypeToTypeScript t ≠ .panic
  | [], _ => by simp
  | type :: rest, h => by
    rw [GoType.listsNonEmptyTerms, Bool.and_eq_true] at h
    intro t ht
    rcases List.mem_cons.1 ht with rfl | ht
    · exact GoType.listsNonEmpty_returns _ h.1
    · exact GoType.listsNonEmptyTerms_returns rest h.2 t ht
end

/-! ## The declaration loop -/

theorem lessChars_irrefl : ∀ a : List Char, lessChars a a = false
  | [] => rfl
  | c :: cs => by
    rw [lessChars]
    simp [lessChars_irrefl cs]

theorem lessChars_asymm : ∀ a b : List Char, lessChars a b = true → lessChars b a = false
  | _, [], h => by simp [lessChars] at h
  | [], _ :: _, _ => by simp [lessChars]
  | a :: as, b :: bs, h => by
    rw [lessChars] at h
    rw [lessChars]
    split_ifs at h with h1 h2
    · have h3 : ¬ b.toNat < a.toNat := by omega
      simp [h3, h1]
    · simp [h2, h1, lessChars_asymm as bs h]

theorem stringLess_ne {a b : String} (h : stringLess a b = true) : a ≠ b := by
  intro hab
  subst hab
  simp [stringLess, lessChars_irrefl] at h

theorem Scope.Names_typeDecls (decls : List (String × GoType))
    (hsorted : (decls.map Prod.fst).Pairwise (fun a b => stringLess a b = true)) :
    Scope.Names (decls.map typeDecl) = decls.map Prod.fst := by
  have hmap : (decls.map typeDecl).map (·.name) = decls.map Prod.fst := by
    simp [List.map_map, Function.comp_def, typeDecl]
  unfold Scope.Names
  rw [hmap]
  apply List.Sorted.insertionSort_eq
  exact hsorted.imp (fun {a b} hab => lessChars_asymm a.data b.data hab)

theorem Scope.Lookup_typeDecls :
    ∀ (decls : List (String × GoType)),
      (decls.map Prod.fst).Pairwise (fun a b => stringLess a b = true) →
      ∀ d ∈ decls, Scope.Lookup (decls.map typeDecl) d.1 = some (typeDecl d)
  | [], _, d, hd => by simp at hd
  | d0 :: rest, hsorted, d, hd => by
    rw [List.map_cons, List.pairwise_cons] at hsorted
    rcases List.mem_cons.1 hd with rfl | hd
    · simp [Scope.Lookup, typeDecl]
    · have hlt := hsorted.1 d.1 (List.mem_map_of_mem Prod.fst hd)
      have hne : (d0.1 == d.1) = false := by simpa using stringLess_ne hlt
      have ih := Scope.Lookup_typeDecls rest hsorted.2 d hd
      unfold Scope.Lookup at ih ⊢
      rw [List.map_cons, List.find?_cons]
      have hname : (typeDecl d0).name = d0.1 := rfl
      simp only [hname, hne]
      exact ih

theorem convertLoop_typeDecls (pkg : Scope) :
    ∀ (decls : List (String × GoType)) (dst : String),
      (∀ d ∈ decls, pkg.Lookup d.1 = some (typeDecl d)) →
      (∀ d ∈ decls, TypeToTypeScript d.2 ≠ .panic) →
      ConvertGoFile.loop pkg (decls.map Prod.fst) dst =
        .returned (dst ++ String.join (decls.filterMap declarationLine))
  | [], dst, _, _ => by
    rw [List.map_nil, ConvertGoFile.loop]
    show Run.returned dst = Run.returned (dst ++ "")
    rw [String.append_empty]
  | d :: rest, dst, hlook, hret => by
    have hl := hlook d (List.mem_cons_self _ _)
    have hr := hret d (List.mem_cons_self _ _)
    have ih := fun dst' => convertLoop_typeDecls pkg rest dst'
      (fun e he => hlook e (List.mem_cons_of_mem _ he))
      (fun e he => hret e (List.mem_cons_of_mem _ he))
    rw [List.map_cons, ConvertGoFile.loop, hl]
    simp only [typeDecl]
    cases hres : TypeToTypeScript d.2 with
    | panic => exact absurd hres hr
    | ret value err =>
      cases err with
      | some e =>
        simp only [ih, List.filterMap_cons, declarationLine, hres]
      | none =>
        simp only [ih, List.filterMap_cons, declarationLine, hres, join_cons,
          String.append_assoc]

/-- The declaration loop on a package of type declarations in ascending name order. -/
theorem ConvertGoFile_typeDecls (decls : List (String × GoType))
    (hsorted : (decls.map Prod.fst).Pairwise (fun a b => stringLess a b = true))
    (hret : ∀ d ∈ decls, TypeToTypeScript d.2 ≠ .panic) :
    ConvertGoFile (decls.map typeDecl) =
      .returned (String.join (decls.filterMap declarationLine)) := by
  unfold ConvertGoFile
  rw [Scope.Names_typeDecls decls hsorted,
    convertLoop_typeDecls _ decls "" (Scope.Lookup_typeDecls decls hsorted) hret]
  congr 1

/-- C1: for every list of declarations `(name, underlying type)` in the order of
`Scope().Names()`, the text `ConvertGoFile` writes is exactly the concatenation, in the
list's order, of "type " + name + " = " + text + newline over the declarations whose
underlying type translates successfully to `text`; a declaration whose translation
fails contributes nothing and the loop goes on to the later declarations. -/
theorem ConvertGoFile_writes_declarations (decls : List (String × GoType))
    (hsorted : (decls.map Prod.fst).Pairwise (fun a b => stringLess a b = true))
    (hchecked : ∀ d ∈ decls, d.2.listsNonEmpty = true) :
    ConvertGoFile (decls.map typeDecl) =
      .returned (String.join (decls.filterMap declarationLine)) :=
  ConvertGoFile_typeDecls decls hsorted
    (fun d hd => GoType.listsNonEmpty_returns d.2 (hchecked d hd))

/-- C1 at four declarations of which the second and the last fail to translate. -/
theorem ConvertGoFile_writes_declarations_witness :
    (List.map Prod.fst [("Alias", GoType.Basic .String), ("Bad", .Basic .Complex128),
        ("Test2", .Struct [("a", .Named "Alias" (.Basic .String))]),
        ("ignored2", .Chan (.Basic .String))]).Pairwise
      (fun a b => stringLess a b = true) ∧
    (∀ d ∈ [("Alias", GoType.Basic .String), ("Bad", .Basic .Complex128),
        ("Test2", .Struct [("a", .Named "Alias" (.Basic .String))]),
        ("ignored2", .Chan (.Basic .String))], d.2.listsNonEmpty = true) ∧
    ConvertGoFile (List.map typeDecl [("Alias", GoType.Basic .String),
        ("Bad", .Basic .Complex128),
        ("Test2", .Struct [("a", .Named "Alias" (.Basic .String))]),
        ("ignored2", .Chan (.Basic .String))]) =
      .returned "type Alias = string\ntype Test2 = \x7b\n  a Alias\n\x7d\n" :=
  ⟨by decide, by decide,
   ConvertGoFile_writes_declarations _ (by decide) (by decide)⟩

/-! ## The named and alias arms -/

/-- C11: a named type and an alias translate to exactly the name of their object, with a
nil error, whatever they stand for; the underlying type is not inlined, and the result is
a success also when the underlying type itself fails to translate. -/
theorem TypeToTypeScript_named_alias (id : String) (underlying : GoType) :
    TypeToTypeScript (.Named id underlying) = .ret id none ∧
    TypeToTypeScript (.Alias id underlying) = .ret id none ∧
    TypeToTypeScript (.Chan (.Basic .String)) =
      .ret "" (some ⟨NOTIMPLEMENTED, .Chan (.Basic .String)⟩) ∧
    TypeToTypeScript (.Named "ignored2" (.Chan (.Basic .String))) = .ret "ignored2" none :=
  ⟨rfl, rfl, rfl, rfl⟩

/-! ## The end-to-end scenario and the objects of the scope -/

/-- C13 (the code on the scenario): the declaration loop writes the three translatable
declarations and leaves out the two unsupported ones, but the line of field `f`, of type
`map[int]string`, is "  f Map<string, string>" and not "  f Map<number, string>"; the
declarations of `ToTypeScriptTypes_test.go` give the same text. -/
theorem ConvertGoFile_scenario :
    ConvertGoFile scenarioScope =
      .returned ("type Alias = string\ntype Test1 = \x7b\n  a bool\n  b number\n  c string\n" ++
        "  d []number\n  e []string\n  f Map<string, string>\n\x7d\n" ++
        "type Test2 = \x7b\n  a Alias\n  b Test1\n\x7d\n") ∧
    ConvertGoFile scenarioScope ≠
      .returned ("type Alias = string\ntype Test1 = \x7b\n  a bool\n  b number\n  c string\n" ++
        "  d []number\n  e []string\n  f Map<number, string>\n\x7d\n" ++
        "type Test2 = \x7b\n  a Alias\n  b Test1\n\x7d\n") ∧
    ConvertGoFile testTypesScope = ConvertGoFile scenarioScope := by
  refine ⟨rfl, ?_, rfl⟩
  intro h
  have h2 : ConvertGoFile scenarioScope =
      .returned ("type Alias = string\ntype Test1 = \x7b\n  a bool\n  b number\n  c string\n" ++
        "  d []number\n  e []string\n  f Map<string, string>\n\x7d\n" ++
        "type Test2 = \x7b\n  a Alias\n  b Test1\n\x7d\n") := rfl
  rw [h2] at h
  injection h with h3
  exact absurd h3 (by decide)

/-- C16 (the code on a map with an unsupported key): `complex128` fails to translate, yet
`map[complex128]string` translates to "Map<string, string>" with a nil error, and a
declaration with this underlying type is written; the key type is never translated.  A
failing value type does make the map fail. -/
theorem TypeToTypeScript_map_key_ignored :
    TypeToTypeScript (.Basic .Complex128) =
      .ret "" (some ⟨NOTIMPLEMENTED, .Basic .Complex128⟩) ∧
    TypeToTypeScript (.Map (.Basic .Complex128) (.Basic .String)) =
      .ret "Map<string, string>" none ∧
    ConvertGoFile [typeDecl ("M", .Map (.Basic .Complex128) (.Basic .String))] =
      .returned "type M = Map<string, string>\n" ∧
    TypeToTypeScript (.Map (.Basic .String) (.Basic .Complex128)) =
      .ret "" (some ⟨NOTIMPLEMENTED, .Basic .Complex128⟩) :=
  ⟨rfl, rfl, rfl, rfl⟩

/-- C19 (the code on a package with a variable and a constant): for the source
`type T` (a struct with the field `a int`), `var x T`, `const c Alias`, `type Alias string`, the loop
writes a line "type x = ..." for the variable `x` and a line "type c = ..." for the
constant `c`, because the test is on the object's type being a named type and not on
the object being a type name. -/
theorem ConvertGoFile_writes_variables :
    ConvertGoFile
      [typeDecl ("T", .Struct [("a", .Basic .Int)]),
       ⟨"x", .Var, .Named "T" (.Struct [("a", .Basic .Int)])⟩,
       ⟨"c", .Const, .Named "Alias" (.Basic .String)⟩,
       typeDecl ("Alias", .Basic .String)] =
      .returned ("type Alias = string\ntype T = \x7b\n  a number\n\x7d\n" ++
        "type c = string\ntype x = \x7b\n  a number\n\x7d\n") :=
  rfl

/-! ## The slice expression after a separator, the tuple and the union -/

theorem takeBytes_append (b : List Char) :
    ∀ a : List Char, takeBytes (a ++ b) (String.utf8Len a) = a
  | [] => by
    cases b with
    | nil => rfl
    | cons c cs =>
      have hpos := Char.utf8Size_pos c
      simp only [List.nil_append, String.utf8Len_nil, takeBytes]
      rw [if_neg (by omega)]
  | c :: cs => by
    have ih := takeBytes_append b cs
    simp only [List.cons_append, String.utf8Len_cons, takeBytes]
    rw [if_pos (by omega), Nat.add_sub_cancel]
    exact congrArg (c :: ·) ih

theorem sliceTo_append (acc sep : String) (k : Nat) (hk : sep.utf8ByteSize = k) :
    sliceTo (acc ++ sep) (((acc ++ sep).utf8ByteSize : Int) - (k : Int)) = some acc := by
  have hsize := utf8ByteSize_append acc sep
  have hhi : ((acc ++ sep).utf8ByteSize : Int) - (k : Int) = (acc.utf8ByteSize : Int) := by
    omega
  rw [hhi]
  unfold sliceTo
  rw [if_neg (by omega)]
  congr 1
  apply String.ext
  simp only [String.data_append, Int.toNat_ofNat]
  exact takeBytes_append sep.data acc.data

theorem intercalate_go_append (p s : String) :
    ∀ (l : List String) (acc : String),
      String.intercalate.go (p ++ acc) s l = p ++ String.intercalate.go acc s l
  | [], acc => rfl
  | a :: l, acc => by
    simp only [String.intercalate.go]
    rw [← intercalate_go_append p s l, String.append_assoc, String.append_assoc,
      String.append_assoc]

theorem tupleLoop_sliced :
    ∀ (rest : List (String × GoType)) (acc : String),
      sliceTo (TupleToTypeScript.loop rest (acc ++ ", "))
          (((TupleToTypeScript.loop rest (acc ++ ", ")).utf8ByteSize : Int) - 2) =
        some (String.intercalate.go acc ", " (rest.map Prod.fst))
  | [], acc => by
    simp only [TupleToTypeScript.loop, List.map_nil, String.intercalate.go]
    exact sliceTo_append acc ", " 2 (by decide)
  | (name, _) :: rest, acc => by
    simp only [TupleToTypeScript.loop, List.map_cons, String.intercalate.go]
    exact tupleLoop_sliced rest (acc ++ ", " ++ name)

theorem TupleToTypeScript_nonempty (vars : List (String × GoType)) (h : vars ≠ []) :
    TupleToTypeScript vars = some ("[" ++ ", ".intercalate (vars.map Prod.fst) ++ "]") := by
  cases vars with
  | nil => exact absurd rfl h
  | cons v rest =>
    obtain ⟨name, type⟩ := v
    unfold TupleToTypeScript
    simp only [TupleToTypeScript.loop, tupleLoop_sliced rest ("[" ++ name), List.map_cons,
      String.intercalate, intercalate_go_append]

/-- C15 (the code on the empty list): with no element the builder holds only "[", the
slice bound is `1 - 2`, below zero, and `TupleToTypeScript` panics instead of returning
"[]"; so does `TypeToTypeScript` on the empty tuple.  On every list with at least one
element it returns "[" + the names joined by ", " + "]". -/
theorem TupleToTypeScript_empty_panics :
    TupleToTypeScript.loop [] "[" = "[" ∧
    ((("[" : String).utf8ByteSize : Int) - 2 = -1) ∧
    TupleToTypeScript [] = none ∧
    TypeToTypeScript (.Tuple []) = .panic ∧
    (∀ vars : List (String × GoType), vars ≠ [] →
      TupleToTypeScript vars = some ("[" ++ ", ".intercalate (vars.map Prod.fst) ++ "]")) ∧
    TupleToTypeScript [("a", .Basic .Int), ("b", .Basic .String)] = some "[a, b]" :=
  ⟨rfl, by decide, rfl, rfl, TupleToTypeScript_nonempty, rfl⟩

theorem unionLoop_success :
    ∀ (rest : List GoType) (acc : String),
      (∀ t ∈ rest, (TypeToTypeScript t).isSuccess = true) →
      UnionToTypeScript.loop rest (acc ++ " | ") =
        .ret (String.intercalate.go acc " | "
          (rest.map fun t => (TypeToTypeScript t).value)) none
  | [], acc, _ => by
    rw [UnionToTypeScript.loop]
    have h := sliceTo_append acc " | " 3 (by decide)
    simp only [Nat.cast_ofNat] at h
    simp only [h, List.map_nil, String.intercalate.go]
  | t :: rest, acc, h => by
    have ht := Result.eq_of_isSuccess (h t (List.mem_cons_self _ _))
    have ih := unionLoop_success rest (acc ++ " | " ++ (TypeToTypeScript t).value)
      (fun u hu => h u (List.mem_cons_of_mem _ hu))
    rw [UnionToTypeScript.loop, ht]
    simp only [Result.value, List.map_cons, String.intercalate.go]
    exact ih

theorem unionLoop_first_error (t : GoType) (post : List GoType) (value : String)
    (err : typeError) (ht : TypeToTypeScript t = .ret value (some err)) :
    ∀ (pre : List GoType) (b : String),
      (∀ p ∈ pre, (TypeToTypeScript p).isSuccess = true) →
      UnionToTypeScript.loop (pre ++ t :: post) b = .ret "" (some err)
  | [], b, _ => by
    rw [List.nil_append, UnionToTypeScript.loop, ht]
  | p :: pre, b, h => by
    have hp := Result.eq_of_isSuccess (h p (List.mem_cons_self _ _))
    rw [List.cons_append, UnionToTypeScript.loop, hp]
    exact unionLoop_first_error t post value err ht pre _
      (fun q hq => h q (List.mem_cons_of_mem _ hq))

/-- C14: for every non-empty list of union terms, if every term translates successfully
then `UnionToTypeScript` returns the translated terms in order joined by " | ", with a
nil error; and if the first term that does not translate successfully returns an error,
`UnionToTypeScript` returns exactly that error with the empty string. -/
theorem UnionToTypeScript_join (terms : List GoType) (hne : terms ≠ []) :
    ((∀ t ∈ terms, (TypeToTypeScript t).isSuccess = true) →
      UnionToTypeScript terms =
        .ret (" | ".intercalate (terms.map fun t => (TypeToTypeScript t).value)) none) ∧
    (∀ (pre post : List GoType) (t : GoType) (value : String) (err : typeError),
      terms = pre ++ t :: post →
      (∀ p ∈ pre, (TypeToTypeScript p).isSuccess = true) →
      TypeToTypeScript t = .ret value (some err) →
      UnionToTypeScript terms = .ret "" (some err)) := by
  constructor
  · intro h
    cases terms with
    | nil => exact absurd rfl hne
    | cons t rest =>
      have ht := Result.eq_of_isSuccess (h t (List.mem_cons_self _ _))
      have hrest := unionLoop_success rest (TypeToTypeScript t).value
        (fun u hu => h u (List.mem_cons_of_mem _ hu))
      unfold UnionToTypeScript
      rw [UnionToTypeScript.loop, ht]
      simp only [Result.value, String.empty_append, List.map_cons, String.intercalate]
      exact hrest
  · intro pre post t value err hterms hpre ht
    subst hterms
    exact unionLoop_first_error t post value err ht pre "" hpre

/-- C14 at the union `int | string | bool` of the test file, which gives
"number | string | bool", and at `int | complex64 | chan int`, which gives the error of
`complex64`. -/
theorem UnionToTypeScript_join_witness :
    UnionToTypeScript [.Basic .Int, .Basic .String, .Basic .Bool] =
      .ret "number | string | bool" none ∧
    UnionToTypeScript [.Basic .Int, .Basic .Complex64, .Chan (.Basic .Int)] =
      .ret "" (some ⟨"Type is unsupported", .Basic .Complex64⟩) :=
  ⟨(UnionToTypeScript_join [.Basic .Int, .Basic .String, .Basic .Bool] (by simp)).1 (by
      intro t ht
      simp only [List.mem_cons, List.mem_singleton, List.not_mem_nil, or_false] at ht
      rcases ht with rfl | rfl | rfl <;> rfl),
   (UnionToTypeScript_join [.Basic .Int, .Basic .Complex64, .Chan (.Basic .Int)]
      (by simp)).2 [.Basic .Int] [.Chan (.Basic .Int)] (.Basic .Complex64) ""
      ⟨"Type is unsupported", .Basic .Complex64⟩ rfl (by
        intro p hp
        simp only [List.mem_singleton] at hp
        subst hp
        rfl) rfl⟩

/-- C18 (the claim fails): on the empty term list `UnionToTypeScript` returns no result
at all. -/
theorem UnionToTypeScript_empty_no_result :
    ¬ ∃ (value : String) (err : Option typeError), UnionToTypeScript [] = .ret value err := by
  rintro ⟨value, err, h⟩
  have hp : UnionToTypeScript [] = .panic := rfl
  rw [hp] at h
  cases h

/-- C18, amended: a zero-length union is not guarded.  On the empty term list the builder
is empty, the slice bound is `0 - 3`, and `UnionToTypeScript` panics with a slice bound
out of range; on every list with at least one term, whose terms all return, it returns a
text or an error value. -/
theorem UnionToTypeScript_empty_panics :
    (((("" : String).utf8ByteSize : Int) - 3 = -3) ∧
      sliceTo "" (-3) = none ∧ UnionToTypeScript [] = .panic) ∧
    (∀ terms : List GoType, terms ≠ [] → (∀ t ∈ terms, TypeToTypeScript t ≠ .panic) →
      ∃ (value : String) (err : Option typeError), UnionToTypeScript terms = .ret value err) := by
  refine ⟨⟨by decide, rfl, rfl⟩, ?_⟩
  intro terms hne hret
  have h := unionLoop_returns terms "" hret (Or.inl hne)
  unfold UnionToTypeScript
  cases hr : UnionToTypeScript.loop terms "" with
  | panic => exact absurd hr h
  | ret value err => exact ⟨value, err, rfl⟩

/-- C18, amended, at the one-term union `string` and the two-term union
`chan int | string`. -/
theorem UnionToTypeScript_empty_panics_witness :
    (∃ (value : String) (err : Option typeError),
      UnionToTypeScript [.Basic .String] = .ret value err) ∧
    (∃ (value : String) (err : Option typeError),
      UnionToTypeScript [.Chan (.Basic .Int), .Basic .String] = .ret value err) :=
  ⟨UnionToTypeScript_empty_panics.2 [.Basic .String] (by simp) (by
      intro t ht
      simp only [List.mem_singleton] at ht
      subst ht
      exact GoType.listsNonEmpty_returns _ rfl),
   UnionToTypeScript_empty_panics.2 [.Chan (.Basic .Int), .Basic .String] (by simp) (by
      intro t ht
      simp only [List.mem_cons, List.mem_singleton, List.not_mem_nil, or_false] at ht
      rcases ht with rfl | rfl <;> exact GoType.listsNonEmpty_returns _ rfl)⟩

/-! ## The error of a struct and the culprit of an error -/

theorem structLoop_first_offender (s : List (String × GoType)) (f : String × GoType)
    (post : List (String × GoType)) :
    ∀ (pre : List (String × GoType)) (b : String),
      (∀ g ∈ pre, g.1 ≠ "" ∧ (TypeToTypeScript g.2).isSuccess = true) →
      (f.1 = "" →
        StructToTypeScript.loop s (pre ++ f :: post) b =
          .ret "" (some ⟨EMBEDDEDFIELD, .Struct s⟩)) ∧
      (∀ (value : String) (err : typeError), f.1 ≠ "" →
        TypeToTypeScript f.2 = .ret value (some err) →
        StructToTypeScript.loop s (pre ++ f :: post) b = .ret "" (some err))
  | [], b, _ => by
    obtain ⟨name, type⟩ := f
    constructor
    · intro hname
      simp only at hname
      subst hname
      rw [List.nil_append, StructToTypeScript.loop]
      rfl
    · intro value err hname ht
      have hn : (name == "") = false := by simpa using hname
      rw [List.nil_append, StructToTypeScript.loop]
      simp only [hn, Bool.false_eq_true, if_false]
      simp only at ht
      rw [ht]
  | (name, type) :: pre, b, h => by
    have hhead := h (name, type) (List.mem_cons_self _ _)
    have hn : (name == "") = false := by simpa using hhead.1
    have hty := Result.eq_of_isSuccess hhead.2
    have ih := structLoop_first_offender s f post pre
      (b ++ "  " ++ name ++ " " ++ (TypeToTypeScript type).value ++ "\n")
      (fun g hg => h g (List.mem_cons_of_mem _ hg))
    have hstep : ∀ r, StructToTypeScript.loop s ((name, type) :: pre ++ f :: post) b = r ↔
        StructToTypeScript.loop s (pre ++ f :: post)
          (b ++ "  " ++ name ++ " " ++ (TypeToTypeScript type).value ++ "\n") = r := by
      intro r
      rw [List.cons_append, StructToTypeScript.loop]
      simp only [hn, Bool.false_eq_true, if_false]
      rw [hty]
      exact Iff.rfl
    exact ⟨fun hf => (hstep _).2 (ih.1 hf), fun value err hf ht => (hstep _).2 (ih.2 value err hf ht)⟩

theorem structLoop_error_decomposition (s : List (String × GoType)) :
    ∀ (rest : List (String × GoType)) (b value : String) (err : typeError),
      StructToTypeScript.loop s rest b = .ret value (some err) →
      ∃ (pre : List (String × GoType)) (f : String × GoType) (post : List (String × GoType)),
        rest = pre ++ f :: post ∧
        (∀ g ∈ pre, g.1 ≠ "" ∧ (TypeToTypeScript g.2).isSuccess = true) ∧
        ((f.1 = "" ∧ err = ⟨EMBEDDEDFIELD, .Struct s⟩) ∨
          (f.1 ≠ "" ∧ TypeToTypeScript f.2 = .ret "" (some err)))
  | [], b, value, err, h => by simp [StructToTypeScript.loop] at h
  | (name, type) :: rest, b, value, err, h => by
    rw [StructToTypeScript.loop] at h
    split at h
    · rename_i hname
      refine ⟨[], (name, type), rest, rfl, by simp, Or.inl ⟨by simpa using hname, ?_⟩⟩
      cases h
      rfl
    · rename_i hname
      have hne : name ≠ "" := by simpa using hname
      split at h
      · cases h
      · rename_i v e heq
        cases h
        have hv := TypeToTypeScript_error_text type v err heq
        subst hv
        exact ⟨[], (name, type), rest, rfl, by simp, Or.inr ⟨hne, heq⟩⟩
      · rename_i v heq
        obtain ⟨pre, f, post, hrest, hpre, hf⟩ :=
          structLoop_error_decomposition s rest _ value err h
        refine ⟨(name, type) :: pre, f, post, by rw [hrest]; rfl, ?_, hf⟩
        intro g hg
        rcases List.mem_cons.1 hg with rfl | hg
        · exact ⟨hne, by rw [heq]; rfl⟩
        · exact hpre g hg

/-- C17: when `StructToTypeScript` returns an error, the returned text is empty and the
error is decided by the first offending field in declaration order (every field before it
has a non-empty name and a type that translates successfully): if that field has an empty
name the error is "Embedded fields are not supported" carrying the struct itself,
otherwise it is exactly the error returned by translating that field's type.  Conversely
a struct with such a first offending field returns that error. -/
theorem StructToTypeScript_first_offender (fields : List (String × GoType)) :
    (∀ (value : String) (err : typeError),
      StructToTypeScript fields = .ret value (some err) →
      value = "" ∧
      ∃ (pre : List (String × GoType)) (f : String × GoType) (post : List (String × GoType)),
        fields = pre ++ f :: post ∧
        (∀ g ∈ pre, g.1 ≠ "" ∧ (TypeToTypeScript g.2).isSuccess = true) ∧
        ((f.1 = "" ∧ err = ⟨"Embedded fields are not supported", .Struct fields⟩) ∨
          (f.1 ≠ "" ∧ TypeToTypeScript f.2 = .ret "" (some err)))) ∧
    (∀ (pre : List (String × GoType)) (f : String × GoType) (post : List (String × GoType)),
      fields = pre ++ f :: post →
      (∀ g ∈ pre, g.1 ≠ "" ∧ (TypeToTypeScript g.2).isSuccess = true) →
      (f.1 = "" →
        StructToTypeScript fields =
          .ret "" (some ⟨"Embedded fields are not supported", .Struct fields⟩)) ∧
      (∀ (value : String) (err : typeError), f.1 ≠ "" →
        TypeToTypeScript f.2 = .ret value (some err) →
        StructToTypeScript fields = .ret "" (some err))) := by
  constructor
  · intro value err h
    exact ⟨structLoop_error_text fields fields _ value err h,
      structLoop_error_decomposition fields fields _ value err h⟩
  · intro pre f post hfields hpre
    have h := structLoop_first_offender fields f post pre "\x7b\n" hpre
    rw [← hfields] at h
    exact h

/-- C17 at a struct whose second field has an empty name and whose third field has an
unsupported type, and at a struct whose second field has an unsupported type and whose
third field has an empty name. -/
theorem StructToTypeScript_first_offender_witness :
    StructToTypeScript [("a", .Basic .Int), ("", .Basic .String), ("c", .Basic .Complex64)] =
      .ret "" (some ⟨"Embedded fields are not supported",
        .Struct [("a", .Basic .Int), ("", .Basic .String), ("c", .Basic .Complex64)]⟩) ∧
    StructToTypeScript [("a", .Basic .Int), ("c", .Basic .Complex64), ("", .Basic .String)] =
      .ret "" (some ⟨"Type is unsupported", .Basic .Complex64⟩) :=
  ⟨((StructToTypeScript_first_offender
        [("a", .Basic .Int), ("", .Basic .String), ("c", .Basic .Complex64)]).2
      [("a", .Basic .Int)] ("", .Basic .String) [("c", .Basic .Complex64)] rfl (by
        intro g hg
        simp only [List.mem_singleton] at hg
        subst hg
        exact ⟨by decide, rfl⟩)).1 rfl,
   ((StructToTypeScript_first_offender
        [("a", .Basic .Int), ("c", .Basic .Complex64), ("", .Basic .String)]).2
      [("a", .Basic .Int)] ("c", .Basic .Complex64) [("", .Basic .String)] rfl (by
        intro g hg
        simp only [List.mem_singleton] at hg
        subst hg
        exact ⟨by decide, rfl⟩)).2 "" ⟨"Type is unsupported", .Basic .Complex64⟩
      (by decide) rfl⟩

/-- C8 (the code on a struct with an embedded field): the source `type Broken struct`
with the field `a int` and the embedded field `string` reaches the program as a struct
whose second field has the name "string", so the test for an empty name does not fire:
`StructToTypeScript` and `TypeToTypeScript` return the block with the line
"  string string" and a nil error, and `ConvertGoFile` writes the declaration `Broken`.
Only a field whose name is literally empty gets the embedded-field error; a struct all of
whose field names are non-empty never raises it itself, its error, if any, being that of
a field's type. -/
theorem StructToTypeScript_embedded_field_emitted :
    StructToTypeScript [("a", .Basic .Int), embeddedField "string" (.Basic .String)] =
      .ret "\x7b\n  a number\n  string string\n\x7d" none ∧
    TypeToTypeScript (.Struct [("a", .Basic .Int), embeddedField "string" (.Basic .String)]) =
      .ret "\x7b\n  a number\n  string string\n\x7d" none ∧
    ConvertGoFile [typeDecl ("Alias", .Basic .String),
        typeDecl ("Broken",
          .Struct [("a", .Basic .Int), embeddedField "string" (.Basic .String)])] =
      .returned
        "type Alias = string\ntype Broken = \x7b\n  a number\n  string string\n\x7d\n" ∧
    StructToTypeScript [("a", .Basic .Int), ("", .Basic .String)] =
      .ret "" (some ⟨"Embedded fields are not supported",
        .Struct [("a", .Basic .Int), ("", .Basic .String)]⟩) ∧
    (∀ (fields : List (String × GoType)), (∀ f ∈ fields, f.1 ≠ "") →
      ∀ (value : String) (err : typeError),
        StructToTypeScript fields = .ret value (some err) →
        ∃ f ∈ fields, TypeToTypeScript f.2 = .ret "" (some err)) := by
  refine ⟨rfl, rfl, rfl, rfl, ?_⟩
  intro fields hnames value err h
  obtain ⟨pre, f, post, hfields, _, hf⟩ :=
    structLoop_error_decomposition fields fields _ value err h
  have hmem : f ∈ fields := by rw [hfields]; simp
  rcases hf with ⟨hname, _⟩ | ⟨_, hty⟩
  · exact absurd hname (hnames f hmem)
  · exact ⟨f, hmem, hty⟩

theorem Culprit.lift {t e : GoType} {err : typeError}
    (hreach : ∀ n, e.Reaches n → t.Reaches n) (h : Culprit e err) : Culprit t err := by
  rcases h with ⟨h1, h2, h3⟩ | ⟨h1, h2, h3⟩
  · exact Or.inl ⟨h1, hreach _ h2, h3⟩
  · exact Or.inr ⟨h1, hreach _ h2, h3⟩

theorem unionLoop_error_term :
    ∀ (terms : List GoType) (b value : String) (err : typeError),
      UnionToTypeScript.loop terms b = .ret value (some err) →
      ∃ t ∈ terms, ∃ v, TypeToTypeScript t = .ret v (some err)
  | [], b, value, err, h => by
    rw [UnionToTypeScript.loop] at h
    split at h <;> cases h
  | type :: rest, b, value, err, h => by
    rw [UnionToTypeScript.loop] at h
    split at h
    · cases h
    · rename_i v e heq
      cases h
      exact ⟨type, List.mem_cons_self _ _, v, heq⟩
    · obtain ⟨t, ht, v, hv⟩ := unionLoop_error_term rest _ value err h
      exact ⟨t, List.mem_cons_of_mem _ ht, v, hv⟩

mutual
theorem culprit_type :
    (t : GoType) → ∀ (value : String) (err : typeError),
      TypeToTypeScript t = .ret value (some err) → Culprit t err
  | .Basic kind, value, err, h => by
    rw [TypeToTypeScript] at h
    split_ifs at h with h1 h2 h3 h4
    · cases h
    · cases h
      exact Or.inl ⟨rfl, GoType.Reaches.self _, by simp [GoType.unsupportedNode, h2]⟩
    · cases h
    · cases h
    · cases h
      refine Or.inl ⟨rfl, GoType.Reaches.self _, ?_⟩
      have e1 : kind.Info &&& IsBoolean = 0 := by omega
      have e3 : kind.Info &&& IsNumeric = 0 := by omega
      have e4 : kind.Info &&& IsString = 0 := by omega
      simp [GoType.unsupportedNode, e1, e3, e4]
  | .Struct fields, value, err, h => by
    rw [TypeToTypeScript] at h
    obtain ⟨pre, f, post, hfields, _, hf⟩ :=
      structLoop_error_decomposition fields fields _ value err h
    have hmem : f ∈ fields := by rw [hfields]; simp
    rcases hf with ⟨hname, herr⟩ | ⟨_, hty⟩
    · subst herr
      exact Or.inr ⟨rfl, GoType.Reaches.self _, fields, rfl, f, hmem, hname⟩
    · exact Culprit.lift (fun n hn => GoType.Reaches.field hmem hn)
        (culprit_fields fields f hmem "" err hty)
  | .Array elem len, value, err, h => by
    rw [TypeToTypeScript] at h
    cases hr : TypeToTypeScript elem with
    | panic =>
      simp only [hr] at h
      cases h
    | ret v er =>
      cases er with
      | none =>
        simp only [hr] at h
        cases h
      | some er =>
        simp only [hr] at h
        cases h
        exact Culprit.lift (fun n hn => GoType.Reaches.array len hn) (culprit_type elem v _ hr)
  | .Slice elem, value, err, h => by
    rw [TypeToTypeScript] at h
    cases hr : TypeToTypeScript elem with
    | panic =>
      simp only [hr] at h
      cases h
    | ret v er =>
      cases er with
      | none =>
        simp only [hr] at h
        cases h
      | some er =>
        simp only [hr] at h
        cases h
        exact Culprit.lift (fun n hn => GoType.Reaches.slice hn) (culprit_type elem v _ hr)
  | .Pointer elem, value, err, h => by
    rw [TypeToTypeScript] at h
    cases hr : TypeToTypeScript elem with
    | panic =>
      simp only [hr] at h
      cases h
    | ret v er =>
      cases er with
      | none =>
        simp only [hr] at h
        cases h
      | some er =>
        simp only [hr] at h
        cases h
        exact Culprit.lift (fun n hn => GoType.Reaches.pointer hn) (culprit_type elem v _ hr)
  | .Map key elem, value, err, h => by
    rw [TypeToTypeScript] at h
    cases hr : TypeToTypeScript elem with
    | panic =>
      simp only [hr] at h
      cases h
    | ret v er =>
      cases er with
      | none =>
        simp only [hr] at h
        cases h
      | some er =>
        simp only [hr] at h
        cases h
        exact Culprit.lift (fun n hn => GoType.Reaches.mapValue key hn) (culprit_type elem v _ hr)
  | .Named _ _, value, err, h => by
    rw [TypeToTypeScript] at h
    cases h
  | .Alias _ _, value, err, h => by
    rw [TypeToTypeScript] at h
    cases h
  | .Tuple vars, value, err, h => by
    rw [TypeToTypeScript] at h
    split at h <;> cases h
  | .Union terms, value, err, h => by
    rw [TypeToTypeScript] at h
    obtain ⟨t, ht, v, hv⟩ := unionLoop_error_term terms _ value err h
    exact Culprit.lift (fun n hn => GoType.Reaches.term ht hn)
      (culprit_terms terms t ht v err hv)
  | .Chan _, value, err, h => by
    rw [TypeToTypeScript] at h
    cases h
    exact Or.inl ⟨rfl, GoType.Reaches.self _, rfl⟩
  | .Signature _ _, value, err, h => by
    rw [TypeToTypeScript] at h
    cases h
    exact Or.inl ⟨rfl, GoType.Reaches.self _, rfl⟩
  | .Interface _, value, err, h => by
    rw [TypeToTypeScript] at h
    cases h
    exact Or.inl ⟨rfl, GoType.Reaches.self _, rfl⟩
  | .TypeParam _, value, err, h => by
    rw [TypeToTypeScript] at h
    cases h
    exact Or.inl ⟨rfl, GoType.Reaches.self _, rfl⟩

theorem culprit_fields :
    (fields : List (String × GoType)) → ∀ f ∈ fields, ∀ (value : String) (err : typeError),
      TypeToTypeScript f.2 = .ret value (some err) → Culprit f.2 err
  | [], f, hf => by simp at hf
  | (_, type) :: rest, f, hf => by
    rcases List.mem_cons.1 hf with rfl | hf
    · exact culprit_type type
    · exact culprit_fields rest f hf

theorem culprit_terms :
    (terms : List GoType) → ∀ t ∈ terms, ∀ (value : String) (err : typeError),
      TypeToTypeScript t = .ret value (some err) → Culprit t err
  | [], t, ht => by simp at ht
  | type :: rest, t, ht => by
    rcases List.mem_cons.1 ht with heq | ht
    · rw [heq]
      exact culprit_type type
    · exact culprit_terms rest t ht
end

theorem Reaches_named_alias (n : GoType) :
    (∀ name u, GoType.Reaches (.Named name u) n → n = .Named name u) ∧
    (∀ name u, GoType.Reaches (.Alias name u) n → n = .Alias name u) := by
  constructor <;> intro name u h <;> cases h <;> rfl

/-- C20: whenever `TypeToTypeScript` fails on `t`, its error is either "Type is
unsupported" carrying a node that is `t` itself or is reached from `t` through array,
slice and pointer elements, map values, struct field types and union terms, and that is
an unsupported basic or has no case in the type switch, or it is "Embedded fields are not
supported" carrying a struct reached in the same way that has a field with an empty name.
Nothing but the node itself is reached from a named or alias node, so no error carries a
node found only behind one. -/
theorem TypeToTypeScript_error_culprit (t : GoType) (value : String) (err : typeError)
    (h : TypeToTypeScript t = .ret value (some err)) :
    ((err.text = "Type is unsupported" ∧ t.Reaches err.errorType ∧
        err.errorType.unsupportedNode = true) ∨
      (err.text = "Embedded fields are not supported" ∧ t.Reaches err.errorType ∧
        ∃ fields, err.errorType = .Struct fields ∧ ∃ f ∈ fields, f.1 = "")) ∧
    (∀ name u n, GoType.Reaches (.Named name u) n → n = .Named name u) ∧
    (∀ name u n, GoType.Reaches (.Alias name u) n → n = .Alias name u) :=
  ⟨culprit_type t value err h, fun name u n => (Reaches_named_alias n).1 name u,
    fun name u n => (Reaches_named_alias n).2 name u⟩

/-- C20 at a slice of structs whose field `m` is a map from a channel to a struct with an
empty field name: the error carries the inner struct, reached through the slice element,
the field type and the map value. -/
theorem TypeToTypeScript_error_culprit_witness :
    TypeToTypeScript (.Slice (.Struct [("n", .Named "T" (.Chan (.Basic .Int))),
        ("m", .Map (.Chan (.Basic .Int)) (.Struct [("", .Basic .Int)]))])) =
      .ret "" (some ⟨"Embedded fields are not supported", .Struct [("", .Basic .Int)]⟩) ∧
    GoType.Reaches (.Slice (.Struct [("n", .Named "T" (.Chan (.Basic .Int))),
        ("m", .Map (.Chan (.Basic .Int)) (.Struct [("", .Basic .Int)]))]))
      (.Struct [("", .Basic .Int)]) :=
  have h : TypeToTypeScript (.Slice (.Struct [("n", .Named "T" (.Chan (.Basic .Int))),
        ("m", .Map (.Chan (.Basic .Int)) (.Struct [("", .Basic .Int)]))])) =
      .ret "" (some ⟨"Embedded fields are not supported", .Struct [("", .Basic .Int)]⟩) := rfl
  ⟨h, (TypeToTypeScript_error_culprit _ _ _ h).1.elim (fun h1 => h1.2.1) (fun h2 => h2.2.1)⟩

/-! ## The order of the declarations -/

theorem Char.eq_of_toNat_eq {a b : Char} (h : a.toNat = b.toNat) : a = b := by
  rw [← Char.ofNat_toNat a, ← Char.ofNat_toNat b, h]

theorem lessChars_antisymm :
    ∀ a b : List Char, lessChars a b = false → lessChars b a = false → a = b
  | [], [], _, _ => rfl
  | [], _ :: _, h, _ => by simp [lessChars] at h
  | _ :: _, [], _, h => by simp [lessChars] at h
  | a :: as, b :: bs, h1, h2 => by
    rw [lessChars] at h1 h2
    split_ifs at h1 h2 with c1 c2
    have hab : a = b := Char.eq_of_toNat_eq (by omega)
    rw [hab, lessChars_antisymm as bs h1 h2]

theorem lessChars_le_trans :
    ∀ a b c : List Char, lessChars b a = false → lessChars c b = false →
      lessChars c a = false
  | [], _, c, _, _ => by cases c <;> rfl
  | _ :: _, [], _, h, _ => by simp [lessChars] at h
  | _ :: _, _ :: _, [], _, h => by simp [lessChars] at h
  | x :: as, y :: bs, z :: cs, h1, h2 => by
    rw [lessChars] at h1 h2
    rw [lessChars]
    split_ifs at h1 h2 with c1 c2 c3 c4
    · rw [if_neg (by omega), if_pos (by omega)]
    · rw [if_neg (by omega), if_pos (by omega)]
    · rw [if_neg (by omega), if_pos (by omega)]
    · rw [if_neg (by omega), if_neg (by omega)]
      exact lessChars_le_trans as bs cs h1 h2

theorem stringLE_isTotal : IsTotal String (fun a b => stringLess b a = false) :=
  ⟨fun a b => by
    cases h : stringLess b a with
    | false => exact Or.inl rfl
    | true => exact Or.inr (lessChars_asymm b.data a.data h)⟩

theorem stringLE_isTrans : IsTrans String (fun a b => stringLess b a = false) :=
  ⟨fun a b c hab hbc => lessChars_le_trans a.data b.data c.data hab hbc⟩

theorem stringLess_of_le_of_ne {a b : String} (hle : stringLess b a = false) (hne : a ≠ b) :
    stringLess a b = true := by
  cases h : stringLess a b with
  | true => rfl
  | false => exact absurd (String.ext (lessChars_antisymm a.data b.data h hle)) hne

theorem Scope.Names_strict (pkg : Scope) (hnodup : (pkg.map (·.name)).Nodup) :
    (Scope.Names pkg).Pairwise (fun a b => stringLess a b = true) := by
  haveI := stringLE_isTotal
  haveI := stringLE_isTrans
  have hsorted : (Scope.Names pkg).Pairwise (fun a b => stringLess b a = false) :=
    List.sorted_insertionSort _ _
  have hnd : (Scope.Names pkg).Nodup :=
    (List.perm_insertionSort _ _).nodup_iff.2 hnodup
  exact (hsorted.and hnd).imp (fun {a b} h => stringLess_of_le_of_ne h.1 h.2)

theorem Scope.Lookup_typeDecls_nodup :
    ∀ (decls : List (String × GoType)), (decls.map Prod.fst).Nodup →
      ∀ d ∈ decls, Scope.Lookup (decls.map typeDecl) d.1 = some (typeDecl d)
  | [], _, d, hd => by simp at hd
  | d0 :: rest, hnodup, d, hd => by
    rw [List.map_cons, List.nodup_cons] at hnodup
    rcases List.mem_cons.1 hd with rfl | hd
    · simp [Scope.Lookup, typeDecl]
    · have hne : (d0.1 == d.1) = false := by
        have : d0.1 ≠ d.1 := fun heq =>
          hnodup.1 (heq ▸ List.mem_map_of_mem Prod.fst hd)
        simpa using this
      have ih := Scope.Lookup_typeDecls_nodup rest hnodup.2 d hd
      unfold Scope.Lookup at ih ⊢
      rw [List.map_cons, List.find?_cons]
      have hname : (typeDecl d0).name = d0.1 := rfl
      simp only [hname, hne]
      exact ih

/-- C12: for every set of type declarations with distinct names, in whatever order the
source has them, `ConvertGoFile` goes through them in the order of `Scope().Names()`,
which holds the same names in strictly ascending order, and writes the lines of those
that translate in that order; the names of the declarations it writes are a subsequence
of `Scope().Names()` and so strictly ascending. -/
theorem ConvertGoFile_ascending (decls : List (String × GoType))
    (hnodup : (decls.map Prod.fst).Nodup)
    (hchecked : ∀ d ∈ decls, d.2.listsNonEmpty = true) :
    ∃ sorted : List (String × GoType),
      sorted.Perm decls ∧
      sorted.map Prod.fst = Scope.Names (decls.map typeDecl) ∧
      (Scope.Names (decls.map typeDecl)).Pairwise (fun a b => stringLess a b = true) ∧
      ConvertGoFile (decls.map typeDecl) =
        .returned (String.join (sorted.filterMap declarationLine)) ∧
      ((sorted.filter fun d => (declarationLine d).isSome).map Prod.fst).Sublist
        (Scope.Names (decls.map typeDecl)) ∧
      ((sorted.filter fun d => (declarationLine d).isSome).map Prod.fst).Pairwise
        (fun a b => stringLess a b = true) := by
  have hmap : (decls.map typeDecl).map (·.name) = decls.map Prod.fst := by
    simp [List.map_map, Function.comp_def, typeDecl]
  have hperm : (decls.insertionSort (fun d e => stringLess e.1 d.1 = false)).Perm decls :=
    List.perm_insertionSort _ _
  have hnames : (decls.insertionSort (fun d e => stringLess e.1 d.1 = false)).map Prod.fst =
      Scope.Names (decls.map typeDecl) := by
    unfold Scope.Names
    rw [hmap]
    exact List.map_insertionSort _ _ Prod.fst decls (fun _ _ _ _ => Iff.rfl)
  have hstrict : (Scope.Names (decls.map typeDecl)).Pairwise
      (fun a b => stringLess a b = true) :=
    Scope.Names_strict _ (by rw [hmap]; exact hnodup)
  have hsub : ((decls.insertionSort (fun d e => stringLess e.1 d.1 = false)).filter
      fun d => (declarationLine d).isSome).map Prod.fst |>.Sublist
      (Scope.Names (decls.map typeDecl)) := by
    rw [← hnames]
    exact (List.filter_sublist _).map _
  refine ⟨_, hperm, hnames, hstrict, ?_, hsub, hstrict.sublist hsub⟩
  unfold ConvertGoFile
  rw [← hnames, convertLoop_typeDecls _ _ ""
    (fun d hd => Scope.Lookup_typeDecls_nodup decls hnodup d (hperm.mem_iff.1 hd))
    (fun d hd => GoType.listsNonEmpty_returns d.2 (hchecked d (hperm.mem_iff.1 hd)))]
  congr 1

/-- C12 at three declarations that the source has in descending name order, the middle
one failing to translate. -/
theorem ConvertGoFile_ascending_witness :
    Scope.Names (List.map typeDecl [("b", GoType.Basic .String), ("a", .Chan (.Basic .Int)),
      ("B", .Basic .Bool)]) = ["B", "a", "b"] ∧
    ConvertGoFile (List.map typeDecl [("b", GoType.Basic .String), ("a", .Chan (.Basic .Int)),
      ("B", .Basic .Bool)]) = .returned "type B = bool\ntype b = string\n" ∧
    ∃ sorted : List (String × GoType),
      sorted.Perm [("b", GoType.Basic .String), ("a", .Chan (.Basic .Int)),
        ("B", .Basic .Bool)] ∧
      ConvertGoFile (List.map typeDecl [("b", GoType.Basic .String),
        ("a", .Chan (.Basic .Int)), ("B", .Basic .Bool)]) =
        .returned (String.join (sorted.filterMap declarationLine)) ∧
      ((sorted.filter fun d => (declarationLine d).isSome).map Prod.fst).Pairwise
        (fun a b => stringLess a b = true) :=
  ⟨rfl, rfl,
   (ConvertGoFile_ascending [("b", GoType.Basic .String), ("a", .Chan (.Basic .Int)),
      ("B", .Basic .Bool)] (by decide) (by decide)).elim
    (fun sorted h => ⟨sorted, h.1, h.2.2.2.1, h.2.2.2.2.2⟩)⟩

end GoToTypeScript
